import Mathlib

/-!
# Verification of the `dmil/streamlit-test` dashboard and ingestion model

This file gives a shallow embedding, in Lean 4, of the parts of the
repository relevant to the frozen claims:

* the **Metric Normalizer**, **Snapshot Ingestor** and **persistence
  round-trip** of the scraper-side metrics-history model.  The source of
  that component (`process_scrape_data` and its helpers) is not part of
  the checked-out sources, so those definitions are modelled from the
  specification text (each such definition carries a doc comment starting
  with `Modelled from the spec:`);
* the helpers of `src/app.py` that ARE in the checked-out sources:
  `utc_to_local`, `get_scraper_status_data` and `send_slack_notification`.
  Those definitions are translated directly from the Python source.

Timestamps are modelled as integer clock readings (seconds); Python
`datetime` values are modelled as a wall-clock reading together with an
optional UTC-offset (`tzinfo`).
-/

namespace StreamlitTest

/-! ## Decimal rendering of natural numbers

Used both for the second-level batch label (spec §4.1 step 1) and for the
string encoding of timestamps in the persisted document (spec §4.2). -/

/-- One decimal digit rendered as a character. -/
def digitToChar (d : Nat) : Char := Char.ofNat (48 + d)

/-- Inverse of `digitToChar` on actual digit characters. -/
def charToDigit (c : Char) : Nat := c.toNat - 48

/-- Render a natural number in decimal (most significant digit first). -/
def decimalRepr (n : Nat) : String :=
  if n = 0 then "0" else String.mk (((Nat.digits 10 n).reverse).map digitToChar)

/-- Modelled from the spec: timestamps are "serialized in a lossless,
sortable, re-parseable textual form" (spec §6); we encode the integer
clock reading in decimal. -/
def encodeTimestamp (n : Nat) : String := decimalRepr n

/-- Modelled from the spec: re-parse a string-encoded timestamp back to the
clock reading it denotes (spec §4.2: "string-encoded timestamps must be
re-parseable to equivalent instants").  Total: garbage input yields some
number rather than an error. -/
def decodeTimestamp (s : String) : Nat :=
  Nat.ofDigits 10 (s.data.reverse.map charToDigit)

/-! ## Metric Normalizer (spec §4.3) -/

/-- Modelled from the spec: the "fixed small set" of trailing magnitude
suffixes, case-insensitive — thousand/million/billion style multipliers
(spec §4.3). -/
def suffixFactor (c : Char) : Option Nat :=
  if c == 'k' || c == 'K' then some 1000
  else if c == 'm' || c == 'M' then some 1000000
  else if c == 'b' || c == 'B' then some 1000000000
  else none

/-- Value of a list of decimal digit characters read as a natural number. -/
def digitsVal (cs : List Char) : Nat :=
  cs.foldl (fun acc c => acc * 10 + (c.toNat - 48)) 0

/-- Modelled from the spec: parse a decimal numeral (digits with at most one
dot) as an exact fraction `numerator / denominator`; `none` on any parse
failure (spec §4.3: "parses as a floating value").  The fraction is exact,
modelling the mathematical value the float denotes. -/
def parseDecimal (cs : List Char) : Option (Nat × Nat) :=
  match cs.splitOn '.' with
  | [w] => if w.isEmpty then none else some (digitsVal w, 1)
  | [w, f] =>
      if w.isEmpty && f.isEmpty then none
      else some (digitsVal (w ++ f), 10 ^ f.length)
  | _ => none

/-- Modelled from the spec: the Metric Normalizer `normalize(raw)` of
§4.3, absent from the checked-out sources.  `none`/empty input yields 0; a
recognized single trailing magnitude suffix (case-insensitive) causes the
remainder to be stripped of non-numeric characters, parsed as a decimal
value, multiplied by the factor and truncated; with no suffix all
non-digit characters are stripped and the rest parsed as an integer; any
parse failure at any stage yields 0.  The function is total by
construction (it never raises). -/
def normalize (raw : Option String) : Nat :=
  match raw with
  | none => 0
  | some s =>
    if s.isEmpty then 0
    else
      let cs := s.data
      match cs.getLast? with
      | none => 0
      | some last =>
        match suffixFactor last with
        | some factor =>
          let body := cs.dropLast.filter (fun c => c.isDigit || c == '.')
          match parseDecimal body with
          | some (num, den) => num * factor / den
          | none => 0
        | none =>
          let ds := cs.filter Char.isDigit
          if ds.isEmpty then 0 else digitsVal ds

/-! ## Snapshot Ingestor data model (spec §3)

The ingestion core (`process_scrape_data`) is not among the checked-out
sources; every definition in this section is modelled from the
specification (spec §3, §4.1). -/

/-- Modelled from the spec: one raw scraped entity record — "a flat
key-value structure where recognized keys are an identifier field, a
free-text description field, and a small fixed set of numeric engagement
fields" (spec §6), each optional, plus a self-reported time field that
ingestion overrides (spec P5).  Metric values are kept as the raw observed
strings (spec §4.3: "raw strings/numbers are stored as observed"). -/
structure RawRecord where
  id : Option String
  description : Option String
  views : Option String
  likes : Option String
  comments : Option String
  shares : Option String
  bookmarks : Option String
  timestamp : Option Nat
deriving DecidableEq

/-- Modelled from the spec: a point-in-time observation of one Entity,
with "a fixed set of named numeric-or-null counters" (spec §3); missing
fields stay `none`, not zero (spec §4.1 step 2d). -/
structure MetricsSnapshot where
  timestamp : Nat
  views : Option String
  likes : Option String
  comments : Option String
  shares : Option String
  bookmarks : Option String
deriving DecidableEq

/-- Modelled from the spec: an Entity together with its metrics history —
`first_seen` and `description` set at first observation, history in
insertion order (spec §3). -/
structure EntityHistory where
  first_seen : Nat
  description : String
  metrics_history : List MetricsSnapshot
deriving DecidableEq

/-- Modelled from the spec: one ingestion run's immutable record (spec §3,
§6: `scrape_id`, `scraped_at`, `videos_found`, `videos`). -/
structure ScrapeBatch where
  scrape_id : String
  scraped_at : Nat
  videos_found : Nat
  videos : List RawRecord
deriving DecidableEq

/-- Modelled from the spec: the persisted AggregateState (spec §3, §6):
batch log, Entity mapping (an association list keyed by entity id, keys
unique), and the derived summary fields. -/
structure AggregateState where
  last_updated : Option Nat
  total_unique_entities : Nat
  all_scrapes : List ScrapeBatch
  video_history : List (String × EntityHistory)
deriving DecidableEq

/-- Look an entity id up in the Entity mapping. -/
def lookupEntity : List (String × EntityHistory) → String → Option EntityHistory
  | [], _ => none
  | (k, v) :: rest, key => if k = key then some v else lookupEntity rest key

/-- Replace the entry for `key` if present, otherwise append it (keys stay
unique and keep first-insertion order). -/
def updateEntity : List (String × EntityHistory) → String → EntityHistory → List (String × EntityHistory)
  | [], key, v => [(key, v)]
  | (k, w) :: rest, key, v =>
      if k = key then (key, v) :: rest else (k, w) :: updateEntity rest key v

/-- Modelled from the spec: extract the identifier field; "absent or
falsy" identifiers (missing, or the empty string) do not resolve
(spec §4.1 step 2b, P4). -/
def resolveId (oid : Option String) : Option String :=
  match oid with
  | none => none
  | some s => if s = "" then none else some s

/-- Modelled from the spec: stamp a record with the batch timestamp as its
exact observation time, overriding any self-reported time field
(spec §4.1 step 2a, P5). -/
def stampRecord (ts : Nat) (r : RawRecord) : RawRecord :=
  { r with timestamp := some ts }

/-- Modelled from the spec: build a MetricsSnapshot from a record's metric
fields, all snapshots of a call sharing the batch timestamp (spec §4.1
step 2d). -/
def mkSnapshot (ts : Nat) (r : RawRecord) : MetricsSnapshot :=
  { timestamp := ts
    views := r.views
    likes := r.likes
    comments := r.comments
    shares := r.shares
    bookmarks := r.bookmarks }

/-- Modelled from the spec: the per-record history update of `ingest`
(spec §4.1 steps 2b–2d): skip when the identifier does not resolve;
otherwise create the Entity on first sight (`first_seen` = batch
timestamp, description defaulting to the empty string) and append the new
snapshot to its history. -/
def ingestItem (ts : Nat) (st : AggregateState) (r : RawRecord) : AggregateState :=
  match resolveId r.id with
  | none => st
  | some vid =>
    let hist :=
      match lookupEntity st.video_history vid with
      | some h => h
      | none =>
          { first_seen := ts
            description := r.description.getD ""
            metrics_history := [] }
    let hist2 := { hist with metrics_history := hist.metrics_history ++ [mkSnapshot ts r] }
    { st with video_history := updateEntity st.video_history vid hist2 }

/-- Modelled from the spec: `ingest(entities, at)` (spec §4.1): stamp every
record with the batch timestamp, run the per-record history updates in
input order, append the batch record (id formatted from the timestamp,
`item_count` = input length), set `last_updated` and recompute
`total_unique_entities` as the size of the Entity mapping.  Returns the
updated state together with the batch record. -/
def ingest (st : AggregateState) (entities : List RawRecord) (ts : Nat) :
    AggregateState × ScrapeBatch :=
  let stamped := entities.map (stampRecord ts)
  let st1 := stamped.foldl (ingestItem ts) st
  let batch : ScrapeBatch :=
    { scrape_id := encodeTimestamp ts
      scraped_at := ts
      videos_found := entities.length
      videos := stamped }
  ({ st1 with
      all_scrapes := st1.all_scrapes ++ [batch]
      last_updated := some ts
      total_unique_entities := st1.video_history.length }, batch)

/-- Modelled from the spec: the well-defined empty AggregateState — empty
batch sequence, empty Entity mapping, zero counters (spec §4.2). -/
def emptyState : AggregateState :=
  { last_updated := none
    total_unique_entities := 0
    all_scrapes := []
    video_history := [] }

/-- A sequence of ingestion calls (entity batch paired with its
timestamp) run from a starting state. -/
def runIngests (st : AggregateState) (calls : List (List RawRecord × Nat)) : AggregateState :=
  calls.foldl (fun s c => (ingest s c.1 c.2).1) st

/-- The snapshots a single call appends for entity id `k`: one per record
whose identifier resolves to `k`, in input order. -/
def snapsFor (ts : Nat) (k : String) (rs : List RawRecord) : List MetricsSnapshot :=
  (rs.filter (fun r => resolveId r.id == some k)).map (mkSnapshot ts)

/-- Append an id to a list of ids unless already present. -/
def insertNewId (ks : List String) (k : String) : List String :=
  if k ∈ ks then ks else ks ++ [k]

/-- The distinct ids of a list, in order of first appearance. -/
def distinctIds (ids : List String) : List String := ids.foldl insertNewId []

/-- The resolvable identifiers of a batch, in input order. -/
def validIds (rs : List RawRecord) : List String :=
  rs.filterMap (fun r => resolveId r.id)

/-- Every resolvable identifier occurring across a sequence of calls. -/
def allValidIds (calls : List (List RawRecord × Nat)) : List String :=
  (calls.map (fun c => validIds c.1)).flatten

/-- Length of the metrics history recorded for id `k` (0 when `k` is not
in the Entity mapping). -/
def historyLen (st : AggregateState) (k : String) : Nat :=
  match lookupEntity st.video_history k with
  | none => 0
  | some h => h.metrics_history.length

/-! ## Persistence round-trip (spec §4.2, §6)

The persisted document mirrors the in-memory AggregateState with every
timestamp string-encoded (spec §6: "All timestamps are serialized in a
lossless, sortable, re-parseable textual form").  Loading is total; a
missing document yields `emptyState`. -/

/-- Modelled from the spec: a persisted MetricsSnapshot, timestamp
string-encoded. -/
structure SnapshotDoc where
  timestamp : String
  views : Option String
  likes : Option String
  comments : Option String
  shares : Option String
  bookmarks : Option String
deriving DecidableEq

/-- Modelled from the spec: a persisted Entity+history record. -/
structure EntityDoc where
  first_seen : String
  description : String
  metrics_history : List SnapshotDoc
deriving DecidableEq

/-- Modelled from the spec: a persisted raw item (timestamps
string-encoded). -/
structure RecordDoc where
  id : Option String
  description : Option String
  views : Option String
  likes : Option String
  comments : Option String
  shares : Option String
  bookmarks : Option String
  timestamp : Option String
deriving DecidableEq

/-- Modelled from the spec: a persisted ScrapeBatch. -/
structure BatchDoc where
  scrape_id : String
  scraped_at : String
  videos_found : Nat
  videos : List RecordDoc
deriving DecidableEq

/-- Modelled from the spec: the full persisted document (spec §6). -/
structure StateDoc where
  last_updated : Option String
  total_unique_entities : Nat
  all_scrapes : List BatchDoc
  video_history : List (String × EntityDoc)
deriving DecidableEq

/-- Encode a snapshot for persistence. -/
def encodeSnapshot (s : MetricsSnapshot) : SnapshotDoc :=
  { timestamp := encodeTimestamp s.timestamp
    views := s.views
    likes := s.likes
    comments := s.comments
    shares := s.shares
    bookmarks := s.bookmarks }

/-- Decode a persisted snapshot. -/
def decodeSnapshot (d : SnapshotDoc) : MetricsSnapshot :=
  { timestamp := decodeTimestamp d.timestamp
    views := d.views
    likes := d.likes
    comments := d.comments
    shares := d.shares
    bookmarks := d.bookmarks }

/-- Encode an entity record for persistence. -/
def encodeEntity (h : EntityHistory) : EntityDoc :=
  { first_seen := encodeTimestamp h.first_seen
    description := h.description
    metrics_history := h.metrics_history.map encodeSnapshot }

/-- Decode a persisted entity record. -/
def decodeEntity (d : EntityDoc) : EntityHistory :=
  { first_seen := decodeTimestamp d.first_seen
    description := d.description
    metrics_history := d.metrics_history.map decodeSnapshot }

/-- Encode a raw item for persistence. -/
def encodeRecord (r : RawRecord) : RecordDoc :=
  { id := r.id
    description := r.description
    views := r.views
    likes := r.likes
    comments := r.comments
    shares := r.shares
    bookmarks := r.bookmarks
    timestamp := r.timestamp.map encodeTimestamp }

/-- Decode a persisted raw item. -/
def decodeRecord (d : RecordDoc) : RawRecord :=
  { id := d.id
    description := d.description
    views := d.views
    likes := d.likes
    comments := d.comments
    shares := d.shares
    bookmarks := d.bookmarks
    timestamp := d.timestamp.map decodeTimestamp }

/-- Encode a batch record for persistence. -/
def encodeBatch (b : ScrapeBatch) : BatchDoc :=
  { scrape_id := b.scrape_id
    scraped_at := encodeTimestamp b.scraped_at
    videos_found := b.videos_found
    videos := b.videos.map encodeRecord }

/-- Decode a persisted batch record. -/
def decodeBatch (d : BatchDoc) : ScrapeBatch :=
  { scrape_id := d.scrape_id
    scraped_at := decodeTimestamp d.scraped_at
    videos_found := d.videos_found
    videos := d.videos.map decodeRecord }

/-- Modelled from the spec: save is a total overwrite of the previous
persisted value (spec §4.2); encoding the state produces the document
written to durable storage. -/
def saveState (st : AggregateState) : StateDoc :=
  { last_updated := st.last_updated.map encodeTimestamp
    total_unique_entities := st.total_unique_entities
    all_scrapes := st.all_scrapes.map encodeBatch
    video_history := st.video_history.map (fun kv => (kv.1, encodeEntity kv.2)) }

/-- Decode a persisted document back to an AggregateState. -/
def decodeState (d : StateDoc) : AggregateState :=
  { last_updated := d.last_updated.map decodeTimestamp
    total_unique_entities := d.total_unique_entities
    all_scrapes := d.all_scrapes.map decodeBatch
    video_history := d.video_history.map (fun kv => (kv.1, decodeEntity kv.2)) }

/-- Modelled from the spec: `load` is total — a missing file/record
(`none`) yields the well-defined empty AggregateState, never an error
(spec §4.2). -/
def loadState (stored : Option StateDoc) : AggregateState :=
  match stored with
  | none => emptyState
  | some d => decodeState d

/-! ## `src/app.py`: datetime helpers

Python `datetime` values are modelled as a wall-clock reading (`wall`,
in seconds) plus an optional UTC offset (`tzinfo`, in seconds; `none`
models a timezone-naive value).  An aware value `⟨wall, some off⟩`
denotes the instant `wall - off` on the UTC timeline. -/

/-- A Python `datetime`: wall-clock reading plus optional UTC offset. -/
structure PyDateTime where
  wall : Int
  tzinfo : Option Int
deriving DecidableEq

/-- A Python value as far as `utc_to_local` can observe it: `None`, a
`datetime`, or some other (non-datetime) value. -/
inductive PyValue where
  | pynone : PyValue
  | pydt : PyDateTime → PyValue
  | pyother : String → PyValue
deriving DecidableEq

/-- The instant on the UTC timeline denoted by a `PyDateTime`, a naive
value being read with the given assumed offset. -/
def instantOf (d : PyDateTime) (naiveOffset : Int) : Int :=
  d.wall - d.tzinfo.getD naiveOffset

/-- Python's `datetime.astimezone(target)`: same instant, wall clock
re-expressed with the target offset (a naive receiver is read with
`srcDefault`, Python's local-time assumption — `utc_to_local` only ever
calls it on aware values). -/
def astimezone (d : PyDateTime) (srcDefault : Int) (target : Int) : PyDateTime :=
  { wall := d.wall - d.tzinfo.getD srcDefault + target, tzinfo := some target }

/-- `utc_to_local` from `src/app.py` (lines 31–45): `None` passes
through, non-datetimes pass through, a naive datetime gets UTC attached
(`replace(tzinfo=timezone.utc)`), then the value is converted to the
local timezone (modelled by its UTC offset `localOffset`). -/
def utc_to_local (localOffset : Int) : PyValue → PyValue
  | .pynone => .pynone
  | .pyother s => .pyother s
  | .pydt d =>
    let d1 := if d.tzinfo.isNone then { d with tzinfo := some (0 : Int) } else d
    .pydt (astimezone d1 localOffset localOffset)

/-! ## `src/app.py`: scraper status (`get_scraper_status_data`) -/

/-- The `last_run` field of a scraper document: absent/`None` (or any
falsy non-datetime), a `datetime`, or some other truthy non-datetime
value (kept as its `str()` rendering). -/
inductive LastRun where
  | lnone : LastRun
  | ldt : PyDateTime → LastRun
  | lother : String → LastRun
deriving DecidableEq

/-- A scraper document as read from the `orgs` collection. -/
structure Scraper where
  last_run : LastRun
  name : Option String
  url : Option String
  path : Option String
deriving DecidableEq

/-- An organization document: name, color, and its scrapers. -/
structure Org where
  name : Option String
  color : Option String
  scrapers : List Scraper
deriving DecidableEq

/-- One row of the status table built by `get_scraper_status_data`. -/
structure ScraperRow where
  school : String
  name : String
  path : String
  health : String
  health_reason : String
  url : String
  last_run_str : String
deriving DecidableEq

/-- One entry of the `failed_scrapers` list. -/
structure FailedEntry where
  school : String
  name : String
  health_reason : String
  url : String
deriving DecidableEq

/-- Stand-in for `strftime("%Y-%m-%d %I:%M:%S %p")`: the calendar
rendering itself is outside the model, so the local wall-clock reading is
rendered in decimal. -/
def strftimeModel (d : PyDateTime) : String := decimalRepr d.wall.toNat

/-- The `last_run_str` computation for a datetime `last_run`:
`utc_to_local` followed by formatting (lines 660–662). -/
def fmtLocal (localOffset : Int) (d : PyDateTime) : String :=
  match utc_to_local localOffset (.pydt d) with
  | .pydt d2 => strftimeModel d2
  | _ => ""

/-- `path_suffix`: everything after the last dot (line 669,
`path.split(chr 46)[-1]`). -/
def pathSuffix (p : String) : String := (p.splitOn ".").getLastD p

/-- `path_number` (lines 667–674): last character of the path suffix when
it is a digit, else `1` (Python mixes `str` and `int` here; both are
rendered as strings, as the display code later casts the column to
`str`). -/
def pathNumber (path : Option String) : String :=
  let p := path.getD "No path"
  let sfx := if p = "No path" then p else pathSuffix p
  match sfx.data.getLast? with
  | some c => if c.isDigit then String.mk [c] else "1"
  | none => "1"

/-- The health check of `get_scraper_status_data` (lines 676–699):
healthy with reason "Running normally" iff `last_run` is a datetime whose
instant (naive values read as UTC) is at most 24 hours before `now`;
otherwise unhealthy with the appropriate reason string. -/
def healthInfo (now : Int) (lr : LastRun) : Bool × String :=
  match lr with
  | .ldt d =>
    let aware := if d.tzinfo.isNone then { d with tzinfo := some (0 : Int) } else d
    let secs := now - (aware.wall - aware.tzinfo.getD 0)
    if secs ≤ 86400 then (true, "Running normally")
    else (false, "Last run " ++ decimalRepr ((secs / 3600).toNat) ++ "h ago")
  | _ => (false, "No run data available")

/-- `scraper.get("name", "").replace(" announcements", "")` (line 709). -/
def scraperDisplayName (s : Scraper) : String :=
  (s.name.getD "").replace " announcements" ""

/-- The loop body of `get_scraper_status_data` for one scraper (lines
657–723): format `last_run`, compute the path number and the health
check, bump exactly one of the two health counters, extend
`failed_scrapers` when unhealthy, and append the display row. -/
def processScraper (now localOffset : Int) (school : String)
    (acc : List ScraperRow × (Nat × Nat) × List FailedEntry) (s : Scraper) :
    List ScraperRow × (Nat × Nat) × List FailedEntry :=
  let lastRunStr :=
    match s.last_run with
    | .ldt d => fmtLocal localOffset d
    | .lnone => ""
    | .lother v => v
  let pnum := pathNumber s.path
  let hi := healthInfo now s.last_run
  let healthStr := if hi.1 then "✅ Healthy" else "❌ Unhealthy"
  let counts := acc.2.1
  let counts2 := if hi.1 then (counts.1 + 1, counts.2) else (counts.1, counts.2 + 1)
  let failed2 :=
    if hi.1 then acc.2.2
    else acc.2.2 ++
      [{ school := school
         name := scraperDisplayName s
         health_reason := hi.2
         url := s.url.getD "No URL" }]
  let row : ScraperRow :=
    { school := school
      name := scraperDisplayName s
      path := pnum
      health := healthStr
      health_reason := hi.2
      url := s.url.getD "No URL"
      last_run_str := lastRunStr }
  (acc.1 ++ [row], counts2, failed2)

/-- `get_scraper_status_data` from `src/app.py` (lines 646–725): walk
every scraper of every organization, producing the display rows, the
healthy/unhealthy counters and the failed-scrapers list.  `now` is the
current UTC instant and `localOffset` the local timezone's UTC offset
(ambient in the source, explicit parameters here). -/
def get_scraper_status_data (now localOffset : Int) (orgs : List Org) :
    List ScraperRow × (Nat × Nat) × List FailedEntry :=
  orgs.foldl
    (fun acc org =>
      org.scrapers.foldl (processScraper now localOffset (org.name.getD "Unknown School")) acc)
    ([], (0, 0), [])

/-- All scrapers of all organizations, flattened in traversal order. -/
def allScrapers (orgs : List Org) : List Scraper := (orgs.map Org.scrapers).flatten

/-- The claim's healthiness predicate, stated independently of the loop:
`last_run` is a datetime at most 24 hours before the current time, naive
values treated as UTC. -/
def healthyPerClaim (now : Int) (s : Scraper) : Bool :=
  match s.last_run with
  | .ldt d => decide (now - (d.wall - d.tzinfo.getD 0) ≤ 86400)
  | _ => false

/-! ## `src/app.py`: Slack notification (`send_slack_notification`) -/

/-- The JSON payload posted to the webhook. -/
structure SlackPayload where
  text : String
  username : String
  icon_emoji : String
deriving DecidableEq

/-- Python truthiness of the webhook configuration value: falsy when the
environment variable is unset (`None`) or set to the empty string. -/
def webhookFalsy : Option String → Bool
  | none => true
  | some s => s.isEmpty

/-- The message and payload built by `send_slack_notification` (lines
131–157). -/
def buildSlackMessage (failed : List FailedEntry) (isDaily : Bool) : SlackPayload :=
  let n := failed.length
  let header :=
    if isDaily then "📊 *Daily Scraper Report: " ++ decimalRepr n ++ " Failed*\n\n"
    else "🚨 *" ++ decimalRepr n ++ " Campus Scraper" ++ (if n ≠ 1 then "s" else "") ++ " Failed*\n\n"
  let username := if isDaily then "Campus Scraper Daily Report" else "Campus Scraper Monitor"
  let body := failed.foldl
    (fun m f =>
      m ++ "• *" ++ f.school ++ "* - " ++ f.name ++ "\n  ❌ " ++ f.health_reason
        ++ "\n  🔗 <" ++ f.url ++ "|View Source>\n\n")
    header
  { text := body ++ "Check the dashboard: https://campusdata.onrender.com/"
    username := username
    icon_emoji := if isDaily then ":clipboard:" else ":warning:" }

/-- `send_slack_notification` from `src/app.py` (lines 126–164).  The
HTTP POST is modelled by the oracle `post` (`Except.error` models a
raised exception, `Except.ok c` a response with status code `c`).  The
result pair is (returned value, whether a network request was
attempted): the guard on line 128 returns `False` without posting when
the webhook value is falsy or the failed list is empty; otherwise the
function returns whether the status code is 200, and `False` if posting
raised. -/
def send_slack_notification (webhook : Option String) (failed : List FailedEntry)
    (isDaily : Bool) (post : SlackPayload → Except String Nat) : Bool × Bool :=
  if webhookFalsy webhook || failed.isEmpty then (false, false)
  else
    match post (buildSlackMessage failed isDaily) with
    | .ok code => (decide (code = 200), true)
    | .error _ => (false, true)

/-! ## Concrete fixtures used to instantiate the theorems -/

/-- An entity record without identifier (spec E2E scenario C). -/
def noIdRecord : RawRecord :=
  ⟨none, some "no id item", none, none, none, none, none, none⟩

/-- A record for entity `v1` carrying a self-reported time field that
ingestion overrides. -/
def rec2 : RawRecord :=
  ⟨some "v1", some "hello", some "10K", some "5", none, none, none, some 99⟩

/-- A snapshot previously recorded for `v1`. -/
def snap0 : MetricsSnapshot := ⟨1, some "10K", none, none, none, none⟩

/-- The history previously recorded for `v1`. -/
def hist0 : EntityHistory := ⟨1, "hello", [snap0]⟩

/-- A state already containing entity `v1`. -/
def st0 : AggregateState := ⟨some 1, 1, [], [("v1", hist0)]⟩

/-- The entity record created for `v1` when `rec2` is ingested into the
empty state at time 2. -/
def histW : EntityHistory := ⟨2, "hello", [mkSnapshot 2 (stampRecord 2 rec2)]⟩

/-- A record for `v1` used twice inside one batch. -/
def dupRecord : RawRecord :=
  ⟨some "v1", some "dup", some "1", none, none, none, none, none⟩

/-- A concrete failed-scraper entry. -/
def failedE : FailedEntry := ⟨"S", "N", "R", "U"⟩

/-- A timezone-naive datetime. -/
def naiveDt : PyDateTime := ⟨100, none⟩

end StreamlitTest

/-! ## Helper lemmas -/

namespace StreamlitTest

theorem charToDigit_digitToChar {d : Nat} (hd : d < 10) :
    charToDigit (digitToChar d) = d := by
  have h : ∀ e, e < 10 → charToDigit (digitToChar e) = e := by decide
  exact h d hd

theorem decodeTimestamp_encodeTimestamp (n : Nat) :
    decodeTimestamp (encodeTimestamp n) = n := by
  rcases Nat.eq_zero_or_pos n with hn | hn
  · subst hn; decide
  · unfold decodeTimestamp encodeTimestamp decimalRepr
    rw [if_neg (Nat.pos_iff_ne_zero.mp hn)]
    have hdata : (String.mk (((Nat.digits 10 n).reverse).map digitToChar)).data
        = ((Nat.digits 10 n).reverse).map digitToChar := rfl
    rw [hdata, ← List.map_reverse, List.reverse_reverse, List.map_map]
    have h : ∀ d ∈ Nat.digits 10 n, (charToDigit ∘ digitToChar) d = d := by
      intro d hd
      exact charToDigit_digitToChar (Nat.digits_lt_base (by norm_num) hd)
    rw [List.map_congr_left h]
    simp only [List.map_id_fun, List.map_id, List.map_id']
    exact Nat.ofDigits_digits 10 n

theorem lookupEntity_updateEntity_self :
    ∀ (l : List (String × EntityHistory)) (k : String) (v : EntityHistory),
      lookupEntity (updateEntity l k v) k = some v
  | [], k, v => by simp [updateEntity, lookupEntity]
  | (k', w) :: rest, k, v => by
    by_cases h : k' = k
    · simp [updateEntity, h, lookupEntity]
    · simp [updateEntity, h, lookupEntity, lookupEntity_updateEntity_self rest k v]

theorem lookupEntity_updateEntity_ne :
    ∀ (l : List (String × EntityHistory)) (k k' : String) (v : EntityHistory), k' ≠ k →
      lookupEntity (updateEntity l k' v) k = lookupEntity l k
  | [], k, k', v, h => by
    show lookupEntity [(k', v)] k = lookupEntity [] k
    simp [lookupEntity, h]
  | (k0, w) :: rest, k, k', v, h => by
    by_cases h0 : k0 = k'
    · simp [updateEntity, h0, lookupEntity, h, Ne.symm h]
    · by_cases h1 : k0 = k
      · simp [updateEntity, h0, lookupEntity, h1, Ne.symm h]
      · simp [updateEntity, h0, lookupEntity, h1,
          lookupEntity_updateEntity_ne rest k k' v h]

theorem lookupEntity_eq_none_iff :
    ∀ (l : List (String × EntityHistory)) (k : String),
      lookupEntity l k = none ↔ k ∉ l.map Prod.fst
  | [], k => by simp [lookupEntity]
  | (k', w) :: rest, k => by
    by_cases h : k' = k
    · simp [lookupEntity, h]
    · simp [lookupEntity, h, lookupEntity_eq_none_iff rest k, Ne.symm h]

theorem keys_updateEntity :
    ∀ (l : List (String × EntityHistory)) (k : String) (v : EntityHistory),
      (updateEntity l k v).map Prod.fst =
        if k ∈ l.map Prod.fst then l.map Prod.fst else l.map Prod.fst ++ [k]
  | [], k, v => by simp [updateEntity]
  | (k', w) :: rest, k, v => by
    by_cases h : k' = k
    · simp [updateEntity, h]
    · simp only [updateEntity, if_neg h, List.map_cons, keys_updateEntity rest k v]
      by_cases hm : k ∈ rest.map Prod.fst
      · simp [hm, Ne.symm h]
      · simp [hm, Ne.symm h]

end StreamlitTest
namespace StreamlitTest

theorem ingestItem_id_none {ts : Nat} {st : AggregateState} {r : RawRecord}
    (h : resolveId r.id = none) : ingestItem ts st r = st := by
  simp [ingestItem, h]

theorem ingestItem_all_scrapes (ts : Nat) (st : AggregateState) (r : RawRecord) :
    (ingestItem ts st r).all_scrapes = st.all_scrapes := by
  unfold ingestItem
  cases h : resolveId r.id <;> simp

theorem foldl_ingestItem_all_scrapes (ts : Nat) :
    ∀ (rs : List RawRecord) (st : AggregateState),
      (rs.foldl (ingestItem ts) st).all_scrapes = st.all_scrapes
  | [], st => rfl
  | r :: rs, st => by
    rw [List.foldl_cons, foldl_ingestItem_all_scrapes ts rs, ingestItem_all_scrapes]

theorem stampRecord_id (ts : Nat) (r : RawRecord) : (stampRecord ts r).id = r.id := rfl

theorem snapsFor_nil (ts : Nat) (k : String) : snapsFor ts k [] = [] := rfl

theorem snapsFor_cons_pos {ts : Nat} {k : String} {r : RawRecord} {rs : List RawRecord}
    (h : resolveId r.id = some k) :
    snapsFor ts k (r :: rs) = mkSnapshot ts r :: snapsFor ts k rs := by
  simp [snapsFor, List.filter_cons, h]

theorem snapsFor_cons_neg {ts : Nat} {k : String} {r : RawRecord} {rs : List RawRecord}
    (h : resolveId r.id ≠ some k) :
    snapsFor ts k (r :: rs) = snapsFor ts k rs := by
  simp [snapsFor, List.filter_cons, h]

theorem lookupEntity_foldl_ingestItem (ts : Nat) (k : String) :
    ∀ (rs : List RawRecord) (st : AggregateState),
      lookupEntity (rs.foldl (ingestItem ts) st).video_history k =
        match lookupEntity st.video_history k with
        | some h => some { h with metrics_history := h.metrics_history ++ snapsFor ts k rs }
        | none =>
          match rs.find? (fun r => resolveId r.id == some k) with
          | some r0 => some { first_seen := ts, description := r0.description.getD "",
                              metrics_history := snapsFor ts k rs }
          | none => none
  | [], st => by
    cases h : lookupEntity st.video_history k <;> simp [h, snapsFor_nil]
  | r :: rs, st => by
    rw [List.foldl_cons]
    rw [lookupEntity_foldl_ingestItem ts k rs (ingestItem ts st r)]
    cases hid : resolveId r.id with
    | none =>
      rw [ingestItem_id_none hid, snapsFor_cons_neg (by simp [hid])]
      cases h : lookupEntity st.video_history k
      · simp only [h, List.find?_cons, hid]
        norm_num
      · simp [h]
    | some k' =>
      by_cases hk : k' = k
      · subst hk
        cases hl : lookupEntity st.video_history k' with
        | some h =>
          have hvh : (ingestItem ts st r).video_history =
              updateEntity st.video_history k'
                { h with metrics_history := h.metrics_history ++ [mkSnapshot ts r] } := by
            simp [ingestItem, hid, hl]
          rw [hvh, lookupEntity_updateEntity_self, snapsFor_cons_pos hid]
          simp
        | none =>
          have hvh : (ingestItem ts st r).video_history =
              updateEntity st.video_history k'
                { first_seen := ts, description := r.description.getD "",
                  metrics_history := [] ++ [mkSnapshot ts r] } := by
            simp [ingestItem, hid, hl]
          rw [hvh, lookupEntity_updateEntity_self, snapsFor_cons_pos hid]
          simp [List.find?_cons, hid]
      · have hvh : lookupEntity (ingestItem ts st r).video_history k =
            lookupEntity st.video_history k := by
          cases hl : lookupEntity st.video_history k' with
          | some h =>
            have : (ingestItem ts st r).video_history =
                updateEntity st.video_history k'
                  { h with metrics_history := h.metrics_history ++ [mkSnapshot ts r] } := by
              simp [ingestItem, hid, hl]
            rw [this, lookupEntity_updateEntity_ne _ _ _ _ hk]
          | none =>
            have : (ingestItem ts st r).video_history =
                updateEntity st.video_history k'
                  { first_seen := ts, description := r.description.getD "",
                    metrics_history := [] ++ [mkSnapshot ts r] } := by
              simp [ingestItem, hid, hl]
            rw [this, lookupEntity_updateEntity_ne _ _ _ _ hk]
        rw [hvh, snapsFor_cons_neg (by simp [hid, hk])]
        cases h : lookupEntity st.video_history k
        · simp only [h, List.find?_cons, hid]
          have hb : ((some k' : Option String) == some k) = false := by simp [hk]
          rw [hb]
        · simp [h]

end StreamlitTest
namespace StreamlitTest

theorem validIds_nil : validIds [] = [] := rfl

theorem validIds_cons (r : RawRecord) (rs : List RawRecord) :
    validIds (r :: rs) =
      match resolveId r.id with
      | none => validIds rs
      | some k => k :: validIds rs := by
  cases h : resolveId r.id <;> simp [validIds, List.filterMap_cons, h]

theorem validIds_stamped (ts : Nat) (es : List RawRecord) :
    validIds (es.map (stampRecord ts)) = validIds es := by
  simp only [validIds, List.filterMap_map]
  rfl

theorem keys_foldl_ingestItem (ts : Nat) :
    ∀ (rs : List RawRecord) (st : AggregateState),
      ((rs.foldl (ingestItem ts) st).video_history).map Prod.fst =
        (validIds rs).foldl insertNewId (st.video_history.map Prod.fst)
  | [], st => rfl
  | r :: rs, st => by
    rw [List.foldl_cons, keys_foldl_ingestItem ts rs (ingestItem ts st r)]
    cases hid : resolveId r.id with
    | none =>
      rw [ingestItem_id_none hid, validIds_cons, hid]
    | some k' =>
      rw [validIds_cons, hid, List.foldl_cons]
      have hvh : (ingestItem ts st r).video_history.map Prod.fst =
          insertNewId (st.video_history.map Prod.fst) k' := by
        cases hl : lookupEntity st.video_history k' with
        | some h =>
          have : (ingestItem ts st r).video_history =
              updateEntity st.video_history k'
                { h with metrics_history := h.metrics_history ++ [mkSnapshot ts r] } := by
            simp [ingestItem, hid, hl]
          rw [this, keys_updateEntity, insertNewId]
        | none =>
          have : (ingestItem ts st r).video_history =
              updateEntity st.video_history k'
                { first_seen := ts, description := r.description.getD "",
                  metrics_history := [] ++ [mkSnapshot ts r] } := by
            simp [ingestItem, hid, hl]
          rw [this, keys_updateEntity, insertNewId]
      rw [hvh]

theorem ingest_video_history (st : AggregateState) (es : List RawRecord) (ts : Nat) :
    (ingest st es ts).1.video_history =
      ((es.map (stampRecord ts)).foldl (ingestItem ts) st).video_history := rfl

theorem ingest_total_eq (st : AggregateState) (es : List RawRecord) (ts : Nat) :
    (ingest st es ts).1.total_unique_entities = (ingest st es ts).1.video_history.length := rfl

theorem ingest_last_updated (st : AggregateState) (es : List RawRecord) (ts : Nat) :
    (ingest st es ts).1.last_updated = some ts := rfl

theorem ingest_batch (st : AggregateState) (es : List RawRecord) (ts : Nat) :
    (ingest st es ts).2 =
      { scrape_id := encodeTimestamp ts
        scraped_at := ts
        videos_found := es.length
        videos := es.map (stampRecord ts) } := rfl

theorem ingest_all_scrapes (st : AggregateState) (es : List RawRecord) (ts : Nat) :
    (ingest st es ts).1.all_scrapes = st.all_scrapes ++ [(ingest st es ts).2] := by
  show ((es.map (stampRecord ts)).foldl (ingestItem ts) st).all_scrapes ++ _ = _
  rw [foldl_ingestItem_all_scrapes]
  rfl

theorem allValidIds_nil : allValidIds [] = [] := rfl

theorem allValidIds_cons (c : List RawRecord × Nat) (cs : List (List RawRecord × Nat)) :
    allValidIds (c :: cs) = validIds c.1 ++ allValidIds cs := by
  simp [allValidIds]

theorem keys_runIngests :
    ∀ (calls : List (List RawRecord × Nat)) (st : AggregateState),
      ((runIngests st calls).video_history).map Prod.fst =
        (allValidIds calls).foldl insertNewId (st.video_history.map Prod.fst)
  | [], st => rfl
  | c :: cs, st => by
    show ((runIngests (ingest st c.1 c.2).1 cs).video_history).map Prod.fst = _
    rw [keys_runIngests cs (ingest st c.1 c.2).1, allValidIds_cons, List.foldl_append,
      ingest_video_history, keys_foldl_ingestItem, validIds_stamped]

theorem runIngests_total_eq :
    ∀ (calls : List (List RawRecord × Nat)) (st : AggregateState),
      st.total_unique_entities = st.video_history.length →
      (runIngests st calls).total_unique_entities = (runIngests st calls).video_history.length
  | [], st, h => h
  | c :: cs, st, h => by
    show (runIngests (ingest st c.1 c.2).1 cs).total_unique_entities = _
    exact runIngests_total_eq cs (ingest st c.1 c.2).1 (ingest_total_eq st c.1 c.2)

end StreamlitTest
namespace StreamlitTest

theorem length_snapsFor (ts : Nat) (k : String) :
    ∀ (rs : List RawRecord), (snapsFor ts k rs).length = (validIds rs).count k
  | [] => rfl
  | r :: rs => by
    cases hid : resolveId r.id with
    | none =>
      rw [snapsFor_cons_neg (by simp [hid]), validIds_cons, hid, length_snapsFor ts k rs]
    | some k' =>
      by_cases hk : k' = k
      · rw [hk] at hid
        rw [snapsFor_cons_pos hid, validIds_cons, hid]
        simp [List.count_cons, length_snapsFor ts k rs]
      · rw [snapsFor_cons_neg (by simp [hid, hk]), validIds_cons, hid]
        simp [List.count_cons, hk, length_snapsFor ts k rs]

theorem historyLen_ingest (st : AggregateState) (es : List RawRecord) (ts : Nat) (k : String) :
    historyLen (ingest st es ts).1 k = historyLen st k + (validIds es).count k := by
  unfold historyLen
  rw [ingest_video_history, lookupEntity_foldl_ingestItem]
  cases hl : lookupEntity st.video_history k with
  | some h =>
    simp [length_snapsFor, validIds_stamped]
  | none =>
    cases hf : List.find? (fun r => resolveId r.id == some k) (es.map (stampRecord ts)) with
    | some r0 =>
      simp [length_snapsFor, validIds_stamped]
    | none =>
      have hc : (validIds es).count k = 0 := by
        rw [← validIds_stamped ts es, ← length_snapsFor ts k]
        have hnil : (es.map (stampRecord ts)).filter (fun r => resolveId r.id == some k) = [] := by
          rw [List.filter_eq_nil_iff]
          intro a ha
          exact List.find?_eq_none.mp hf a ha
        simp [snapsFor, hnil]
      simp [hc]

theorem historyLen_runIngests :
    ∀ (calls : List (List RawRecord × Nat)) (st : AggregateState) (k : String),
      historyLen (runIngests st calls) k = historyLen st k + (allValidIds calls).count k
  | [], st, k => by simp [runIngests, allValidIds_nil]
  | c :: cs, st, k => by
    show historyLen (runIngests (ingest st c.1 c.2).1 cs) k = _
    rw [historyLen_runIngests cs (ingest st c.1 c.2).1 k, historyLen_ingest,
      allValidIds_cons, List.count_append]
    omega

theorem count_flatten_eq_countP (k : String) :
    ∀ (ls : List (List String)), (∀ l ∈ ls, l.count k ≤ 1) →
      (ls.flatten).count k = ls.countP (fun l => decide (k ∈ l))
  | [], _ => rfl
  | l :: ls, h => by
    rw [List.flatten_cons, List.count_append, List.countP_cons,
      count_flatten_eq_countP k ls (fun l hl => h l (List.mem_cons_of_mem _ hl))]
    by_cases hm : k ∈ l
    · have h1 : l.count k = 1 := by
        have := h l (List.mem_cons_self l ls)
        have := List.count_pos_iff.mpr hm
        omega
      simp [h1, hm]
      omega
    · have h0 : l.count k = 0 := by
        simp [List.count_eq_zero, hm]
      simp [h0, hm]

end StreamlitTest
namespace StreamlitTest

theorem healthInfo_fst (now : Int) (s : Scraper) :
    (healthInfo now s.last_run).1 = healthyPerClaim now s := by
  unfold healthInfo healthyPerClaim
  cases hlr : s.last_run with
  | lnone => rfl
  | lother v => rfl
  | ldt d =>
    cases htz : d.tzinfo <;> simp [htz] <;> split <;> simp_all

theorem processScraper_rows_length (now loc : Int) (school : String)
    (acc : List ScraperRow × (Nat × Nat) × List FailedEntry) (s : Scraper) :
    (processScraper now loc school acc s).1.length = acc.1.length + 1 := by
  simp [processScraper]

theorem processScraper_counts (now loc : Int) (school : String)
    (acc : List ScraperRow × (Nat × Nat) × List FailedEntry) (s : Scraper) :
    (processScraper now loc school acc s).2.1 =
      if healthyPerClaim now s then (acc.2.1.1 + 1, acc.2.1.2)
      else (acc.2.1.1, acc.2.1.2 + 1) := by
  by_cases h : healthyPerClaim now s <;>
    simp [processScraper, healthInfo_fst, h]

theorem processScraper_failed_length (now loc : Int) (school : String)
    (acc : List ScraperRow × (Nat × Nat) × List FailedEntry) (s : Scraper) :
    (processScraper now loc school acc s).2.2.length =
      acc.2.2.length + (if healthyPerClaim now s then 0 else 1) := by
  by_cases h : healthyPerClaim now s <;>
    simp [processScraper, healthInfo_fst, h]

theorem foldl_processScraper (now loc : Int) (school : String) :
    ∀ (ss : List Scraper) (acc : List ScraperRow × (Nat × Nat) × List FailedEntry),
      (ss.foldl (processScraper now loc school) acc).1.length = acc.1.length + ss.length ∧
      (ss.foldl (processScraper now loc school) acc).2.1.1
        = acc.2.1.1 + ss.countP (healthyPerClaim now) ∧
      (ss.foldl (processScraper now loc school) acc).2.1.2
        = acc.2.1.2 + ss.countP (fun s => ! healthyPerClaim now s) ∧
      (ss.foldl (processScraper now loc school) acc).2.2.length
        = acc.2.2.length + ss.countP (fun s => ! healthyPerClaim now s)
  | [], acc => by simp
  | s :: ss, acc => by
    obtain ⟨ih1, ih2, ih3, ih4⟩ :=
      foldl_processScraper now loc school ss (processScraper now loc school acc s)
    rw [List.foldl_cons]
    have hr := processScraper_rows_length now loc school acc s
    have hc := processScraper_counts now loc school acc s
    have hf := processScraper_failed_length now loc school acc s
    by_cases h : healthyPerClaim now s
    · rw [if_pos h] at hc hf
      refine ⟨?_, ?_, ?_, ?_⟩ <;>
        simp [ih1, ih2, ih3, ih4, hr, hc, hf, List.countP_cons, h] <;> omega
    · rw [if_neg h] at hc hf
      refine ⟨?_, ?_, ?_, ?_⟩ <;>
        simp [ih1, ih2, ih3, ih4, hr, hc, hf, List.countP_cons, h] <;> omega

theorem allScrapers_nil : allScrapers [] = [] := rfl

theorem allScrapers_cons (org : Org) (orgs : List Org) :
    allScrapers (org :: orgs) = org.scrapers ++ allScrapers orgs := by
  simp [allScrapers]

theorem foldl_orgs_status (now loc : Int) :
    ∀ (orgs : List Org) (acc : List ScraperRow × (Nat × Nat) × List FailedEntry),
      let step := fun acc (org : Org) =>
        org.scrapers.foldl (processScraper now loc (org.name.getD "Unknown School")) acc
      (orgs.foldl step acc).1.length = acc.1.length + (allScrapers orgs).length ∧
      (orgs.foldl step acc).2.1.1
        = acc.2.1.1 + (allScrapers orgs).countP (healthyPerClaim now) ∧
      (orgs.foldl step acc).2.1.2
        = acc.2.1.2 + (allScrapers orgs).countP (fun s => ! healthyPerClaim now s) ∧
      (orgs.foldl step acc).2.2.length
        = acc.2.2.length + (allScrapers orgs).countP (fun s => ! healthyPerClaim now s)
  | [], acc => by simp [allScrapers]
  | org :: orgs, acc => by
    intro step
    obtain ⟨ih1, ih2, ih3, ih4⟩ := foldl_orgs_status now loc orgs (step acc org)
    obtain ⟨hi1, hi2, hi3, hi4⟩ :=
      foldl_processScraper now loc (org.name.getD "Unknown School") org.scrapers acc
    rw [List.foldl_cons]
    refine ⟨?_, ?_, ?_, ?_⟩ <;>
      simp only [ih1, ih2, ih3, ih4, allScrapers_cons, List.countP_append,
        List.length_append] <;>
      simp only [step] at hi1 hi2 hi3 hi4 ⊢ <;>
      omega

theorem countP_add_countP_not (p : Scraper → Bool) :
    ∀ (l : List Scraper), l.countP p + l.countP (fun a => ! p a) = l.length
  | [] => rfl
  | s :: l => by
    have := countP_add_countP_not p l
    by_cases h : p s <;> simp [List.countP_cons, h] <;> omega

end StreamlitTest
namespace StreamlitTest

theorem decodeSnapshot_encodeSnapshot (s : MetricsSnapshot) :
    decodeSnapshot (encodeSnapshot s) = s := by
  cases s
  simp [encodeSnapshot, decodeSnapshot, decodeTimestamp_encodeTimestamp]

theorem decodeEntity_encodeEntity (h : EntityHistory) :
    decodeEntity (encodeEntity h) = h := by
  cases h
  simp [encodeEntity, decodeEntity, decodeTimestamp_encodeTimestamp, List.map_map]
  have : decodeSnapshot ∘ encodeSnapshot = id := funext decodeSnapshot_encodeSnapshot
  simp [this]

theorem decodeRecord_encodeRecord (r : RawRecord) :
    decodeRecord (encodeRecord r) = r := by
  cases r
  simp [encodeRecord, decodeRecord, Option.map_map]
  have : decodeTimestamp ∘ encodeTimestamp = id := funext decodeTimestamp_encodeTimestamp
  simp [this]

theorem decodeBatch_encodeBatch (b : ScrapeBatch) :
    decodeBatch (encodeBatch b) = b := by
  cases b
  simp [encodeBatch, decodeBatch, decodeTimestamp_encodeTimestamp, List.map_map]
  have : decodeRecord ∘ encodeRecord = id := funext decodeRecord_encodeRecord
  simp [this]

theorem decodeState_saveState (st : AggregateState) :
    decodeState (saveState st) = st := by
  cases st
  simp [saveState, decodeState, Option.map_map, List.map_map]
  refine ⟨?_, ?_, ?_⟩
  · have : decodeTimestamp ∘ encodeTimestamp = id := funext decodeTimestamp_encodeTimestamp
    simp [this]
  · have : decodeBatch ∘ encodeBatch = id := funext decodeBatch_encodeBatch
    simp [this]
  · have : ((fun kv => (kv.1, decodeEntity kv.2)) ∘ fun kv => (kv.1, encodeEntity kv.2))
        = (id : String × EntityHistory → String × EntityHistory) := by
      funext kv
      cases kv
      simp [decodeEntity_encodeEntity]
    simp [this]

end StreamlitTest
namespace StreamlitTest

/-! ## Claim theorems -/

/-- Claim C1: the Metric Normalizer satisfies the spec's test vector —
`normalize "12.3K" = 12300`, `normalize "4M" = 4000000`,
`normalize "" = 0`, `normalize "garbage" = 0`, `normalize "1500" = 1500` —
and a missing (`none`) input yields 0.  `normalize` is a total Lean
function, so any parse failure yields 0 rather than raising, by
construction. -/
theorem claim_C1_normalizer_cases :
    normalize (some "12.3K") = 12300 ∧ normalize (some "4M") = 4000000 ∧
    normalize (some "") = 0 ∧ normalize (some "garbage") = 0 ∧
    normalize (some "1500") = 1500 ∧ normalize none = 0 := by
  decide

/-- Claim C2: a record whose identifier does not resolve leaves the
Entity mapping exactly as if the record were absent from the batch (so it
neither creates a mapping entry nor appends a snapshot), yet its stamped
copy appears in the batch's stored item list, the item is counted in
`videos_found`, and the ingestion completes normally (`last_updated` is
set). -/
theorem claim_C2_missing_id_excluded (st : AggregateState) (ts : Nat)
    (pre post : List RawRecord) (r : RawRecord) (hr : resolveId r.id = none) :
    (ingest st (pre ++ r :: post) ts).1.video_history
        = (ingest st (pre ++ post) ts).1.video_history ∧
    stampRecord ts r ∈ (ingest st (pre ++ r :: post) ts).2.videos ∧
    (ingest st (pre ++ r :: post) ts).2.videos_found = (pre ++ r :: post).length ∧
    (ingest st (pre ++ r :: post) ts).1.last_updated = some ts := by
  refine ⟨?_, ?_, rfl, rfl⟩
  · rw [ingest_video_history, ingest_video_history]
    have hmap : (pre ++ r :: post).map (stampRecord ts)
        = pre.map (stampRecord ts) ++ stampRecord ts r :: post.map (stampRecord ts) := by
      simp
    rw [hmap, List.foldl_append, List.foldl_cons,
      ingestItem_id_none (show resolveId (stampRecord ts r).id = none from hr),
      ← List.foldl_append]
    simp
  · rw [ingest_batch]
    simp only [List.mem_map]
    exact ⟨r, by simp, rfl⟩

/-- Witness for claim C2 at a concrete input: ingesting the identifierless
record into the empty state. -/
theorem claim_C2_missing_id_excluded_witness :
    resolveId noIdRecord.id = none ∧
    ((ingest emptyState ([] ++ noIdRecord :: []) 7).1.video_history
        = (ingest emptyState ([] ++ []) 7).1.video_history ∧
     stampRecord 7 noIdRecord ∈ (ingest emptyState ([] ++ noIdRecord :: []) 7).2.videos ∧
     (ingest emptyState ([] ++ noIdRecord :: []) 7).2.videos_found
        = ([] ++ noIdRecord :: []).length ∧
     (ingest emptyState ([] ++ noIdRecord :: []) 7).1.last_updated = some 7) :=
  ⟨rfl, claim_C2_missing_id_excluded emptyState 7 [] [] noIdRecord rfl⟩

/-- Claim C3: after any ingestion, `total_unique_entities` equals the
number of keys of the Entity mapping; and over any sequence of ingestion
calls from the empty state, the keys are exactly the distinct valid
identifiers ever seen (in first-appearance order), so the counter equals
their number. -/
theorem claim_C3_counter_consistency :
    (∀ (st : AggregateState) (es : List RawRecord) (ts : Nat),
        (ingest st es ts).1.total_unique_entities
            = (ingest st es ts).1.video_history.length) ∧
    (∀ calls : List (List RawRecord × Nat),
        ((runIngests emptyState calls).video_history).map Prod.fst
            = distinctIds (allValidIds calls) ∧
        (runIngests emptyState calls).total_unique_entities
            = (distinctIds (allValidIds calls)).length) := by
  refine ⟨fun st es ts => ingest_total_eq st es ts, fun calls => ?_⟩
  have h2 : ((runIngests emptyState calls).video_history).map Prod.fst
      = distinctIds (allValidIds calls) := by
    rw [keys_runIngests]
    rfl
  refine ⟨h2, ?_⟩
  rw [runIngests_total_eq calls emptyState rfl, ← h2, List.length_map]

/-- Claim C4: ingestion never rewrites an existing entity's `first_seen`
or `description`: whatever batch is ingested, an entity already present
keeps both fields and its metrics history is only extended by a (possibly
empty) tail; the batch log is likewise only extended, by exactly the new
batch record. -/
theorem claim_C4_identity_stability (st : AggregateState) (es : List RawRecord) (ts : Nat) :
    (ingest st es ts).1.all_scrapes = st.all_scrapes ++ [(ingest st es ts).2] ∧
    (∀ (k : String) (h : EntityHistory), lookupEntity st.video_history k = some h →
      ∃ h2, lookupEntity (ingest st es ts).1.video_history k = some h2 ∧
        h2.first_seen = h.first_seen ∧ h2.description = h.description ∧
        ∃ tl, h2.metrics_history = h.metrics_history ++ tl) := by
  refine ⟨ingest_all_scrapes st es ts, fun k h hl => ?_⟩
  rw [ingest_video_history, lookupEntity_foldl_ingestItem, hl]
  exact ⟨_, rfl, rfl, rfl, _, rfl⟩

/-- Witness for claim C4 at a concrete input: re-ingesting `v1` with a
different description leaves `first_seen` and `description` unchanged. -/
theorem claim_C4_identity_stability_witness :
    lookupEntity st0.video_history "v1" = some hist0 ∧
    (∃ h2, lookupEntity (ingest st0 [dupRecord] 2).1.video_history "v1" = some h2 ∧
      h2.first_seen = hist0.first_seen ∧ h2.description = hist0.description ∧
      ∃ tl, h2.metrics_history = hist0.metrics_history ++ tl) :=
  ⟨by decide, (claim_C4_identity_stability st0 [dupRecord] 2).2 "v1" hist0 (by decide)⟩


theorem mem_snapsFor_timestamp {ts : Nat} {k : String} {rs : List RawRecord}
    {s : MetricsSnapshot} (h : s ∈ snapsFor ts k rs) : s.timestamp = ts := by
  simp only [snapsFor, List.mem_map] at h
  obtain ⟨r, _, hr⟩ := h
  rw [← hr]
  rfl

/-- Claim C5: every item stored in a batch's item list carries the batch
timestamp exactly (ignoring any self-reported time field), and every
snapshot created by the call carries the batch timestamp (a snapshot found
afterwards either has that timestamp or was already present before the
call). -/
theorem claim_C5_timestamp_stamping (st : AggregateState) (es : List RawRecord) (ts : Nat) :
    (∀ r ∈ (ingest st es ts).2.videos, r.timestamp = some ts) ∧
    (∀ (k : String) (h2 : EntityHistory),
        lookupEntity (ingest st es ts).1.video_history k = some h2 →
        ∀ s ∈ h2.metrics_history,
          s.timestamp = ts ∨
          ∃ h, lookupEntity st.video_history k = some h ∧ s ∈ h.metrics_history) := by
  constructor
  · intro r hr
    rw [ingest_batch] at hr
    simp only [List.mem_map] at hr
    obtain ⟨a, _, ha⟩ := hr
    rw [← ha]
    rfl
  · intro k h2 hl s hs
    rw [ingest_video_history, lookupEntity_foldl_ingestItem] at hl
    cases hold : lookupEntity st.video_history k with
    | some h =>
      rw [hold] at hl
      have hl2 : { h with metrics_history :=
          h.metrics_history ++ snapsFor ts k (es.map (stampRecord ts)) } = h2 :=
        Option.some.inj hl
      rw [← hl2] at hs
      rcases List.mem_append.mp hs with holdmem | hnew
      · exact Or.inr ⟨h, rfl, holdmem⟩
      · exact Or.inl (mem_snapsFor_timestamp hnew)
    | none =>
      rw [hold] at hl
      cases hf : List.find? (fun r => resolveId r.id == some k) (es.map (stampRecord ts)) with
      | some r0 =>
        rw [hf] at hl
        have hl2 : (⟨ts, r0.description.getD "",
            snapsFor ts k (es.map (stampRecord ts))⟩ : EntityHistory) = h2 :=
          Option.some.inj hl
        rw [← hl2] at hs
        exact Or.inl (mem_snapsFor_timestamp hs)
      | none =>
        rw [hf] at hl
        exact absurd hl (by simp)

/-- Witness for claim C5 at a concrete input: `rec2` self-reports time 99
but its stored copy and its snapshot both carry the batch time 2. -/
theorem claim_C5_timestamp_stamping_witness :
    (stampRecord 2 rec2).timestamp = some 2 ∧
    ((mkSnapshot 2 (stampRecord 2 rec2)).timestamp = 2 ∨
      ∃ h, lookupEntity emptyState.video_history "v1" = some h ∧
        mkSnapshot 2 (stampRecord 2 rec2) ∈ h.metrics_history) :=
  ⟨(claim_C5_timestamp_stamping emptyState [rec2] 2).1 (stampRecord 2 rec2) (by decide),
   (claim_C5_timestamp_stamping emptyState [rec2] 2).2 "v1" histW (by decide)
     (mkSnapshot 2 (stampRecord 2 rec2)) (by decide)⟩

/-- Claim C6: persistence round-trips losslessly — decoding a saved
AggregateState (timestamps re-parsed from their string encoding) yields a
state equal in all fields to the original — and loading when nothing was
stored yields the empty AggregateState rather than an error. -/
theorem claim_C6_roundtrip_persistence :
    (∀ st : AggregateState, loadState (some (saveState st)) = st) ∧
    loadState none = emptyState :=
  ⟨fun st => decodeState_saveState st, rfl⟩

/-- Counterexample to claim C7 as stated: one ingestion call whose batch
contains the same resolvable identifier twice appends two snapshots, so
the history length (2) differs from the number of calls in which the
identifier appeared (1). -/
theorem claim_C7_append_only_counterexample :
    historyLen (runIngests emptyState [([dupRecord, dupRecord], 5)]) "v1" = 2 ∧
    List.countP (fun c => decide ("v1" ∈ validIds c.1)) [([dupRecord, dupRecord], 5)] = 1 ∧
    historyLen (runIngests emptyState [([dupRecord, dupRecord], 5)]) "v1"
      ≠ List.countP (fun c => decide ("v1" ∈ validIds c.1)) [([dupRecord, dupRecord], 5)] := by
  refine ⟨by decide, by decide, by decide⟩

/-- Claim C7 (amended): an entity's metrics history length after any
sequence of ingestion calls from the empty state equals the number of
records across all calls whose identifier resolves to that entity — which
equals the number of calls in which the identifier appeared whenever no
single call repeats it — and no call ever mutates or removes a previously
appended snapshot (an existing history is always extended by a tail,
fields intact). -/
theorem claim_C7_append_only_amended :
    (∀ (calls : List (List RawRecord × Nat)) (k : String),
        historyLen (runIngests emptyState calls) k = (allValidIds calls).count k) ∧
    (∀ (calls : List (List RawRecord × Nat)) (k : String),
        (∀ c ∈ calls, (validIds c.1).count k ≤ 1) →
        (allValidIds calls).count k
            = calls.countP (fun c => decide (k ∈ validIds c.1))) ∧
    (∀ (st : AggregateState) (es : List RawRecord) (ts : Nat) (k : String) (h : EntityHistory),
        lookupEntity st.video_history k = some h →
        ∃ tl, lookupEntity (ingest st es ts).1.video_history k
            = some { h with metrics_history := h.metrics_history ++ tl }) := by
  refine ⟨?_, ?_, ?_⟩
  · intro calls k
    rw [historyLen_runIngests]
    simp [historyLen, emptyState, lookupEntity]
  · intro calls k hone
    have hall : allValidIds calls = (calls.map (fun c => validIds c.1)).flatten := rfl
    rw [hall, count_flatten_eq_countP]
    · rw [List.countP_map]
      rfl
    · intro l hl
      simp only [List.mem_map] at hl
      obtain ⟨c, hc, hcl⟩ := hl
      rw [← hcl]
      exact hone c hc
  · intro st es ts k h hl
    rw [ingest_video_history, lookupEntity_foldl_ingestItem, hl]
    exact ⟨_, rfl⟩

/-- Witness for the amended claim C7 at concrete inputs: a single call
containing `v1` once, and the tail-extension property at a state already
holding `v1`. -/
theorem claim_C7_append_only_amended_witness :
    ((allValidIds [([rec2], 5)]).count "v1"
        = List.countP (fun c => decide ("v1" ∈ validIds c.1)) [([rec2], 5)]) ∧
    (∃ tl, lookupEntity (ingest st0 [] 9).1.video_history "v1"
        = some { hist0 with metrics_history := hist0.metrics_history ++ tl }) :=
  ⟨claim_C7_append_only_amended.2.1 [([rec2], 5)] "v1" (by decide),
   claim_C7_append_only_amended.2.2 st0 [] 9 "v1" hist0 (by decide)⟩


/-- Claim C8: `utc_to_local` passes `None` through, returns non-datetime
inputs unchanged, and interprets a timezone-naive datetime as UTC before
converting to the local timezone (offset `off`), so the returned aware
value denotes the same instant as the naive input read as UTC. -/
theorem claim_C8_utc_to_local (off : Int) :
    utc_to_local off PyValue.pynone = PyValue.pynone ∧
    (∀ s : String, utc_to_local off (PyValue.pyother s) = PyValue.pyother s) ∧
    (∀ d : PyDateTime, d.tzinfo = none →
        utc_to_local off (PyValue.pydt d)
            = PyValue.pydt { wall := d.wall + off, tzinfo := some off } ∧
        instantOf { wall := d.wall + off, tzinfo := some off } 0 = instantOf d 0) := by
  refine ⟨rfl, fun s => rfl, fun d hd => ⟨?_, ?_⟩⟩
  · simp [utc_to_local, hd, astimezone]
  · simp [instantOf, hd]

/-- Witness for claim C8 at a concrete input: a naive datetime converted
with local offset -18000 (UTC-5). -/
theorem claim_C8_utc_to_local_witness :
    naiveDt.tzinfo = none ∧
    (utc_to_local (-18000) (PyValue.pydt naiveDt)
        = PyValue.pydt { wall := naiveDt.wall + (-18000), tzinfo := some (-18000) } ∧
     instantOf { wall := naiveDt.wall + (-18000), tzinfo := some (-18000) } 0
        = instantOf naiveDt 0) :=
  ⟨rfl, (claim_C8_utc_to_local (-18000)).2.2 naiveDt rfl⟩

/-- Claim C9: `get_scraper_status_data` classifies every scraper as
exactly one of healthy/unhealthy: the healthy counter counts exactly the
scrapers whose `last_run` is a datetime at most 24 hours before `now`
(naive values read as UTC), the unhealthy counter counts the rest, the
two counters sum to the total number of scrapers, and the failed list has
exactly one entry per unhealthy scraper. -/
theorem claim_C9_scraper_health (now loc : Int) (orgs : List Org) :
    (get_scraper_status_data now loc orgs).2.1.1
        = (allScrapers orgs).countP (healthyPerClaim now) ∧
    (get_scraper_status_data now loc orgs).2.1.2
        = (allScrapers orgs).countP (fun s => ! healthyPerClaim now s) ∧
    (get_scraper_status_data now loc orgs).2.1.1
        + (get_scraper_status_data now loc orgs).2.1.2
        = (allScrapers orgs).length ∧
    (get_scraper_status_data now loc orgs).2.2.length
        = (get_scraper_status_data now loc orgs).2.1.2 := by
  obtain ⟨h1, h2, h3, h4⟩ := foldl_orgs_status now loc orgs ([], (0, 0), [])
  have hdef : get_scraper_status_data now loc orgs
      = orgs.foldl
          (fun acc org =>
            org.scrapers.foldl
              (processScraper now loc (org.name.getD "Unknown School")) acc)
          ([], (0, 0), []) := rfl
  rw [hdef]
  refine ⟨?_, ?_, ?_, ?_⟩
  · simpa using h2
  · simpa using h3
  · rw [h2, h3]
    simpa using countP_add_countP_not (healthyPerClaim now) (allScrapers orgs)
  · rw [h4, h3]
    simp

/-- Counterexample to claim C10 as stated: with the webhook configured to
the empty string (set, but falsy in Python) and a nonempty failed list,
the function returns `False` without attempting the POST even though the
POST would have returned status 200 — contradicting the claim's
"otherwise it returns True iff the HTTP POST returns status code 200". -/
theorem claim_C10_slack_counterexample :
    (some "" : Option String) ≠ none ∧
    ([failedE] : List FailedEntry) ≠ [] ∧
    send_slack_notification (some "") [failedE] false (fun _ => Except.ok 200)
        = (false, false) :=
  ⟨by decide, by decide, by decide⟩

/-- Claim C10 (amended): `send_slack_notification` returns `False` without
performing any network request whenever the webhook URL is unset *or
empty* (Python falsiness) or the failed list is empty; otherwise it posts
once and returns `True` iff the response status code is 200, and an
exception raised while posting yields `False` (with the request counted
as attempted) rather than propagating. -/
theorem claim_C10_slack_amended (w : Option String) (failed : List FailedEntry)
    (isDaily : Bool) (post : SlackPayload → Except String Nat) :
    (webhookFalsy w = true ∨ failed = [] →
        send_slack_notification w failed isDaily post = (false, false)) ∧
    (webhookFalsy w = false → failed ≠ [] →
        ((∀ c, post (buildSlackMessage failed isDaily) = Except.ok c →
            send_slack_notification w failed isDaily post = (decide (c = 200), true)) ∧
         (∀ e, post (buildSlackMessage failed isDaily) = Except.error e →
            send_slack_notification w failed isDaily post = (false, true)))) := by
  constructor
  · rintro (h | h) <;> simp [send_slack_notification, h]
  · intro hw hf
    constructor
    · intro c hc
      simp [send_slack_notification, hw, hf, hc]
    · intro e he
      simp [send_slack_notification, hw, hf, he]

/-- Witness for the amended claim C10 at concrete inputs: a nonempty
webhook and failed list with a POST that returns 200. -/
theorem claim_C10_slack_amended_witness :
    webhookFalsy (some "https://hooks.example/x") = false ∧
    ([failedE] : List FailedEntry) ≠ [] ∧
    send_slack_notification (some "https://hooks.example/x") [failedE] false
        (fun _ => Except.ok 200) = (true, true) :=
  ⟨by decide, by decide,
    ((claim_C10_slack_amended (some "https://hooks.example/x") [failedE] false
        (fun _ => Except.ok 200)).2 (by decide) (by decide)).1 200 rfl⟩

end StreamlitTest
